import Mathlib

set_option maxHeartbeats 1000000
set_option maxRecDepth 4000

/-!
Shallow embedding of the terminal ASCII first-person shooter (src/main.cpp).

Modelling conventions:
* C++ `float` coordinates are embedded as exact rationals `ℚ`; the arithmetic
  the game performs on them (addition, multiplication, comparison) is carried
  out exactly.
* The C++ cast `(int)f` truncates toward zero; it is embedded as `cppTrunc`.
* The heading angle `playerA` only ever enters the simulation through
  `sin(playerA)` and `cos(playerA)`.  Since those are transcendental, the
  embedding carries the pair `(dirX, dirY) = (sin playerA, cos playerA)` as
  state, and the turn transition may replace it by an arbitrary rational pair
  (a sound over-approximation of every heading the player can turn to).
* Reading `map[i]` for `i` outside `[0, 256)` is undefined behaviour in the
  C++ program (`std::string::operator[]` past the buffer); the embedding
  makes such a read observable by returning `none` from `mapAt`.
-/

namespace AsciiFps

/-- C++ truncation toward zero of a rational, as in `static_cast<int>(f)`. -/
def cppTrunc (q : ℚ) : ℤ :=
  if q < 0 then -(Int.floor (-q)) else Int.floor q

/-- Map dimensions from the source (`MAP_WIDTH`, `MAP_HEIGHT`). -/
def mapWidth : ℤ := 16

def mapHeight : ℤ := 16

/-- The fixed 16x16 level layout built by `initGame` (row-major string). -/
def mapStr : String :=
  "################" ++
  "#..............#" ++
  "#........#.....#" ++
  "#........#.....#" ++
  "#..............#" ++
  "#.......####...#" ++
  "#..............#" ++
  "#..............#" ++
  "#..............#" ++
  "#..............#" ++
  "#......##......#" ++
  "#......##......#" ++
  "#..............#" ++
  "#..............#" ++
  "#..............#" ++
  "################"

def mapCells : List Char := mapStr.data

/-- Reading the map string at a linear index; `none` models the out-of-range
read (undefined behaviour) that `map[idx]` performs in C++ when
`idx` is not a valid position of the 256-character string. -/
def mapAt (idx : ℤ) : Option Char :=
  if 0 ≤ idx ∧ idx < 256 then some (mapCells.getD idx.toNat ' ') else none

/-- The linear map index the source computes from truncated coordinates,
`(int)y * MAP_WIDTH + (int)x`. -/
def mapIndex (x y : ℚ) : ℤ :=
  cppTrunc y * mapWidth + cppTrunc x

/-- Bullet pool slot (`struct Bullet`): position, velocity, active flag and the
two length-5 trail arrays. -/
structure Bullet where
  x : ℚ
  y : ℚ
  dx : ℚ
  dy : ℚ
  active : Bool
  trailX : List ℚ
  trailY : List ℚ
  deriving DecidableEq, Repr

/-- The default-constructed bullet (all zeros, inactive, zero trail). -/
def Bullet.init : Bullet :=
  { x := 0, y := 0, dx := 0, dy := 0, active := false
    trailX := List.replicate 5 0, trailY := List.replicate 5 0 }

/-- Enemy (`struct Enemy`): position and alive flag. -/
structure Enemy where
  x : ℚ
  y : ℚ
  alive : Bool
  deriving DecidableEq, Repr

/-- The whole mutable game state: player position, the `(sin, cos)` pair of the
heading, the bullet pool, the enemies, and the two debug counters. -/
structure GState where
  px : ℚ
  py : ℚ
  dirX : ℚ
  dirY : ℚ
  bullets : List Bullet
  enemies : List Enemy
  bulletsFired : ℤ
  activeBullets : ℤ
  deriving DecidableEq, Repr

/-- The state after `initGame`: player at (8,8) heading 0 (so the direction
pair is (sin 0, cos 0) = (0,1)), ten inactive pool slots, the three enemies,
zeroed counters. -/
def initState : GState :=
  { px := 8, py := 8, dirX := 0, dirY := 1
    bullets := List.replicate 10 Bullet.init
    enemies := [⟨10, 10, true⟩, ⟨5, 5, true⟩, ⟨12, 3, true⟩]
    bulletsFired := 0, activeBullets := 0 }

/-- Movement speed constant `playerSpeed`. -/
def playerSpeed : ℚ := 5

/-- Bullet speed constant `bulletSpeed`. -/
def bulletSpeed : ℚ := 5

/-- The four translational input commands of the update engine. -/
inductive Cmd where
  | forward
  | backward
  | strafeL
  | strafeR
  deriving DecidableEq, Repr

/-- The displacement each movement command adds to the player position, as in
the `case 'w'/'s'/'a'/'d'` branches: forward = (sin, cos), strafe left =
(-cos, sin), each scaled by `playerSpeed * fElapsedTime`. -/
def moveDelta (c : Cmd) (s co dt : ℚ) : ℚ × ℚ :=
  match c with
  | Cmd.forward => (s * playerSpeed * dt, co * playerSpeed * dt)
  | Cmd.backward => (-(s * playerSpeed * dt), -(co * playerSpeed * dt))
  | Cmd.strafeL => (-(co * playerSpeed * dt), s * playerSpeed * dt)
  | Cmd.strafeR => (co * playerSpeed * dt, -(s * playerSpeed * dt))

/-- Candidate position after a movement command (before collision test). -/
def candPos (c : Cmd) (g : GState) (dt : ℚ) : ℚ × ℚ :=
  let d := moveDelta c g.dirX g.dirY dt
  (g.px + d.1, g.py + d.2)

/-- The map cell the collision check reads for a movement command:
`map[(int)playerY * MAP_WIDTH + (int)playerX]` at the candidate position.
`none` marks the out-of-range string read the source performs unguarded. -/
def candCell (c : Cmd) (g : GState) (dt : ℚ) : Option Char :=
  let p := candPos c g dt
  mapAt (mapIndex p.1 p.2)

/-- One movement command, exactly as the input `switch` performs it: add the
displacement, read the destination cell, and subtract the displacement back if
that cell is a wall.  Returns `none` when the collision read itself is out of
the map string (undefined behaviour in the source). -/
def movePlayer (c : Cmd) (dt : ℚ) (g : GState) : Option GState :=
  let d := moveDelta c g.dirX g.dirY dt
  let x1 := g.px + d.1
  let y1 := g.py + d.2
  match mapAt (mapIndex x1 y1) with
  | none => none
  | some ch =>
      if ch = '#' then some { g with px := x1 - d.1, py := y1 - d.2 }
      else some { g with px := x1, py := y1 }

/-- Trail seeding on firing: `trail[i] = pos - dir * 0.1 * i` for i = 0..4. -/
def seedTrail (p s : ℚ) : List ℚ :=
  (List.range 5).map fun i => p - s * (1 / 10) * (i : ℚ)

/-- The slot-activation loop of `shootBullet`: walk the pool, activate the
first inactive slot; `none` when every slot is active (the loop falls through
without firing). -/
def activateFirst (px py s co : ℚ) : List Bullet → Option (List Bullet)
  | [] => none
  | b :: bs =>
      if b.active then
        match activateFirst px py s co bs with
        | none => none
        | some bs1 => some (b :: bs1)
      else
        some ({ x := px, y := py, dx := s * bulletSpeed, dy := co * bulletSpeed
                active := true
                trailX := seedTrail px s, trailY := seedTrail py co } :: bs)

/-- `shootBullet`: a no-op when the active counter has reached `MAX_BULLETS`
(10), otherwise activate the first inactive slot and bump both counters. -/
def shootBullet (g : GState) : GState :=
  if g.activeBullets ≥ 10 then g
  else
    match activateFirst g.px g.py g.dirX g.dirY g.bullets with
    | none => g
    | some bs =>
        { g with bullets := bs, bulletsFired := g.bulletsFired + 1
                 activeBullets := g.activeBullets + 1 }

/-- The per-bullet trail shift and position advance at the head of each
`updateBullets` iteration: the oldest trail entry is dropped, the pre-move
position becomes the newest, then the position moves by velocity times dt. -/
def moveBullet (dt : ℚ) (b : Bullet) : Bullet :=
  { b with
    trailX := b.x :: b.trailX.dropLast
    trailY := b.y :: b.trailY.dropLast
    x := b.x + b.dx * dt
    y := b.y + b.dy * dt }

/-- The bounds test of `updateBullets` on the truncated bullet coordinates. -/
def bulletOOB (b : Bullet) : Bool :=
  decide (cppTrunc b.x < 0 ∨ cppTrunc b.x ≥ mapWidth ∨
          cppTrunc b.y < 0 ∨ cppTrunc b.y ≥ mapHeight)

/-- The wall test of `updateBullets` (only ever evaluated in-bounds). -/
def bulletInWall (b : Bullet) : Bool :=
  decide (mapAt (mapIndex b.x b.y) = some '#')

/-- Squared distance between a bullet position and an enemy. -/
def dist2 (bx bY : ℚ) (e : Enemy) : ℚ :=
  (bx - e.x) * (bx - e.x) + (bY - e.y) * (bY - e.y)

/-- The enemy scan of `updateBullets`: kill the first alive enemy within the
0.5 hit radius (`sqrt d2 < 0.5` iff `d2 < 1/4`) and stop; `none` when no alive
enemy is in radius (the scan completes without a hit). -/
def killFirst (bx bY : ℚ) : List Enemy → Option (List Enemy)
  | [] => none
  | e :: es =>
      if e.alive ∧ dist2 bx bY e < 1 / 4 then
        some ({ e with alive := false } :: es)
      else
        match killFirst bx bY es with
        | none => none
        | some es1 => some (e :: es1)

/-- Clearing a bullet slot (`bullet.active = false`). -/
def deactivate (b : Bullet) : Bullet :=
  { b with active := false }

/-- One full `updateBullets` iteration for a single pool slot: skip inactive
bullets; otherwise shift the trail, advance, and apply at most one of the
three deactivation causes in source order (bounds, wall, enemy).  The third
component is the change applied to the `activeBullets` counter. -/
def updateOne (dt : ℚ) (b : Bullet) (es : List Enemy) :
    Bullet × List Enemy × ℤ :=
  if b.active then
    if bulletOOB (moveBullet dt b) then (deactivate (moveBullet dt b), es, -1)
    else if bulletInWall (moveBullet dt b) then
      (deactivate (moveBullet dt b), es, -1)
    else
      match killFirst (moveBullet dt b).x (moveBullet dt b).y es with
      | some es1 => (deactivate (moveBullet dt b), es1, -1)
      | none => (moveBullet dt b, es, 0)
  else (b, es, 0)

/-- The `updateBullets` loop over the whole pool, threading the enemy list and
accumulating the counter change. -/
def updB (dt : ℚ) : List Bullet → List Enemy → List Bullet × List Enemy × ℤ
  | [], es => ([], es, 0)
  | b :: bs, es =>
      let r := updateOne dt b es
      let rest := updB dt bs r.2.1
      (r.1 :: rest.1, rest.2.1, r.2.2 + rest.2.2)

/-- `updateBullets` on the whole game state. -/
def updateBullets (dt : ℚ) (g : GState) : GState :=
  let r := updB dt g.bullets g.enemies
  { g with bullets := r.1, enemies := r.2.1
           activeBullets := g.activeBullets + r.2.2 }

/-- Number of pool slots whose active flag is set (as an integer, to compare
directly with the `activeBullets` counter). -/
def countActive : List Bullet → ℤ
  | [] => 0
  | b :: bs => (if b.active then 1 else 0) + countActive bs

/-- The pool-consistency invariant of the spec: the pool has its 10 slots and
the `activeBullets` counter equals the number of set active flags. -/
def PoolInv (g : GState) : Prop :=
  g.bullets.length = 10 ∧ countActive g.bullets = g.activeBullets

/-- One frame-loop transition of the game state: a movement command (only when
its collision read is defined), a turn (which may retarget the direction pair
to any rational sine/cosine value), a shot, or a bullet update with a
non-negative elapsed time. -/
inductive Step : GState → GState → Prop where
  | move (c : Cmd) (dt : ℚ) (g g' : GState) :
      movePlayer c dt g = some g' → Step g g'
  | turn (g : GState) (s co : ℚ) :
      Step g { g with dirX := s, dirY := co }
  | shoot (g : GState) : Step g (shootBullet g)
  | update (g : GState) (dt : ℚ) :
      0 ≤ dt → Step g (updateBullets dt g)

/-- States reachable from `initState` by frame-loop transitions. -/
inductive Reachable : GState → Prop where
  | init : Reachable initState
  | step {g g' : GState} : Reachable g → Step g g' → Reachable g'

/-- The Windows fire-key handler (the `VK_SPACE` branch of the input loop):
a static latch `spacePressed` is consulted each frame the key is down; when
clear it fires and is set, when set it is merely cleared again.  The first
component says whether `shootBullet` is called this frame, the second is the
latch value carried to the next frame. -/
def fireStep (held sp : Bool) : Bool × Bool :=
  if held then (if sp then (false, false) else (true, true)) else (false, sp)

/-- Number of `shootBullet` calls over a sequence of frames, given the per-frame
held state of the fire key and the initial latch value. -/
def shotsWhileHeld : List Bool → Bool → ℕ
  | [], _ => 0
  | h :: hs, sp =>
      let r := fireStep h sp
      (if r.1 then 1 else 0) + shotsWhileHeld hs r.2

/-- A frame buffer: a list of screen lines, each a list of character cells
(the Unix `screenLines` vector of strings). -/
abbrev Screen : Type := List (List Char)

/-- The enemy pass of `render`: the loop walks the enemy store and draws only
enemies whose alive flag is set (the source's `if (enemy.alive)` guard).  The
geometric projection and box drawing (atan2 / sqrt on floats) are abstracted
as the `drawOne` parameter; the guard structure is the source's. -/
def renderEnemies {σ : Type} (drawOne : Enemy → σ → σ)
    (es : List Enemy) (scr : σ) : σ :=
  es.foldl (fun sc e => if e.alive then drawOne e sc else sc) scr

/-- How the ray-march loop of `render` terminated: wall hit, out-of-map
sample, or distance reaching the maximum range without a hit. -/
inductive RayEnd where
  | wall
  | oob
  | maxRange
  deriving DecidableEq, Repr

/-- The ray-march loop of `render`: starting from distance `d`, repeatedly
advance by the 0.1 step while no hit occurred and the distance is below 16;
sample the ray position; a sample outside the map (float comparison against
the map bounds, as in the source) terminates with `distanceToWall = 16`; a
sample in a WALL cell terminates with the current distance.  The fuel `n`
bounds the iteration count; 161 iterations always suffice from distance 0. -/
def rayStep (px py dx dy : ℚ) : ℕ → ℚ → ℚ × RayEnd
  | 0, d => (d, RayEnd.maxRange)
  | n + 1, d =>
      if d < 16 then
        if px + dx * (d + 1 / 10) < 0 ∨ px + dx * (d + 1 / 10) ≥ 16 ∨
           py + dy * (d + 1 / 10) < 0 ∨ py + dy * (d + 1 / 10) ≥ 16 then
          ((16 : ℚ), RayEnd.oob)
        else if mapAt (mapIndex (px + dx * (d + 1 / 10))
            (py + dy * (d + 1 / 10))) = some '#' then
          (d + 1 / 10, RayEnd.wall)
        else rayStep px py dx dy n (d + 1 / 10)
      else (d, RayEnd.maxRange)

/-- One cast ray for a screen column: the loop from distance 0, with enough
fuel for the full 16-unit range at 0.1 steps.  `dx, dy` stand for the sine and
cosine of the column's ray angle. -/
def castRay (px py dx dy : ℚ) : ℚ × RayEnd :=
  rayStep px py dx dy 161 0

/-- Modelled from the spec: the distance the spec's ray-caster step 3 says an
out-of-map sample should report — "a hit at the current distance, clamped to
max range". -/
def specOobDistance (d : ℚ) : ℚ := min d 16

/-! ### The Unix frame compositor

The geometric projections of sprites use `atan2` and `sqrt` on floats; they
are abstracted as function parameters (`dists`, `eproj`, `bproj`, `tproj`).
Every buffer write of the source is modelled: writes the source guards with
explicit bounds checks use the total guarded setter, writes it performs
unguarded use the checked setter, and a `none` result marks an out-of-buffer
write (undefined behaviour on the `screenLines` vector).  C++ `int` division
truncates toward zero (`Int.tdiv`). -/

/-- A blank `renderHeight` by `renderWidth` buffer of spaces. -/
def blankScreen (rh rw : ℕ) : Screen :=
  List.replicate rh (List.replicate rw ' ')

/-- Overwrite one cell (total; callers establish bounds). -/
def setCell (scr : Screen) (y x : ℕ) (c : Char) : Screen :=
  scr.set y ((scr.getD y []).set x c)

/-- A write the source wraps in its own `0 <= x < renderWidth`,
`0 <= y < renderHeight` test. -/
def setCellIf (rh rw : ℕ) (scr : Screen) (y x : ℤ) (c : Char) : Screen :=
  if 0 ≤ x ∧ x < (rw : ℤ) ∧ 0 ≤ y ∧ y < (rh : ℤ) then
    setCell scr y.toNat x.toNat c
  else scr

/-- A write the source performs without a bounds check: `none` signals an
out-of-buffer access. -/
def setCellChecked (scr : Screen) (y x : ℕ) (c : Char) : Option Screen :=
  if y < scr.length ∧ x < (scr.getD y []).length then
    some (setCell scr y x c)
  else none

/-- The integers `a, a+1, ..., b-1`. -/
def intRange (a b : ℤ) : List ℤ :=
  (List.range (b - a).toNat).map fun i => a + (i : ℤ)

/-- Wall shading bands by distance (`'#'`, `'H'`, `'='`, `'-'`, blank). -/
def wallShade (d : ℚ) : Char :=
  if d ≤ 1 then '#'
  else if d < 2 then 'H'
  else if d < 4 then '='
  else if d < 8 then '-'
  else ' '

/-- Floor shading: a function of the screen row only. -/
def floorShadeChar (rh y : ℕ) : Char :=
  let b : ℚ := 1 - (((y : ℚ)) - (rh : ℚ) / 2) / ((rh : ℚ) / 2)
  if b < 1 / 4 then '#'
  else if b < 1 / 2 then 'x'
  else if b < 3 / 4 then '.'
  else if b < 9 / 10 then '-'
  else ' '

/-- The character the wall loop stores at row `y` of a column whose ray
distance is `d`: sky above the ceiling, wall shade in the span, floor shade
below. -/
def wallColumnChar (rh : ℕ) (d : ℚ) (y : ℕ) : Char :=
  let c : ℤ := cppTrunc ((rh : ℚ) / 2 - (rh : ℚ) / d)
  let f : ℤ := (rh : ℤ) - c
  if (y : ℤ) < c then ' '
  else if (y : ℤ) ≥ c ∧ (y : ℤ) ≤ f then wallShade d
  else floorShadeChar rh y

/-- The wall/floor pass: fills every cell of every column; all writes are
bounded by the loop ranges. -/
def wallPass (rh rw : ℕ) (dists : ℕ → ℚ) (scr : Screen) : Screen :=
  (List.range rw).foldl (fun sc x =>
    (List.range rh).foldl (fun sc2 y =>
      setCell sc2 y x (wallColumnChar rh (dists x) y)) sc) scr

/-- One enemy sprite: a solid box of `'E'`, every write guarded as in the
source. -/
def drawEnemyBox (rh rw : ℕ) (center eh : ℤ) (scr : Screen) : Screen :=
  (intRange 0 (min eh (rh : ℤ))).foldl (fun sc y =>
    (intRange 0 (min (Int.tdiv eh 2) (rw : ℤ))).foldl (fun sc2 x =>
      setCellIf rh rw sc2 (Int.tdiv (rh : ℤ) 2 - Int.tdiv eh 2 + y)
        (center - Int.tdiv eh 4 + x) 'E') sc) scr

/-- Writing a message into one row: the column bound `start + i < rw` is the
loop condition; the row index is written as the source wrote it — unchecked —
so the checked setter reports an out-of-buffer row. -/
def writeRow (rw y start : ℕ) : List Char → ℕ → Screen → Option Screen
  | [], _, scr => some scr
  | c :: cs, i, scr =>
      if start + i < rw then
        match setCellChecked scr y (start + i) c with
        | none => none
        | some scr2 => writeRow rw y start cs (i + 1) scr2
      else some scr

/-- The minimap label text. -/
def mapLabel : List Char := "MAP".toList

/-- The bordered minimap block: border and scaled map content, each write
guarded by the source's `screenX` range test and `y < renderHeight` test. -/
def minimapCells (rh rw : ℕ) (scr : Screen) : Screen :=
  (intRange 0 18).foldl (fun sc y =>
    (intRange 0 18).foldl (fun sc2 x =>
      let screenX : ℤ := ((rw : ℤ) - 19) + x - 1
      if 0 ≤ screenX ∧ screenX < (rw : ℤ) ∧ y < (rh : ℤ) then
        if y = 0 ∨ y = 17 ∨ x = 0 ∨ x = 17 then
          setCell sc2 y.toNat screenX.toNat '+'
        else if 0 < y ∧ y ≤ 16 ∧ 0 < x ∧ x ≤ 16 then
          setCell sc2 y.toNat screenX.toNat
            ((mapAt (Int.tdiv ((y - 1) * 16) 16 * 16 +
              Int.tdiv ((x - 1) * 16) 16)).getD ' ')
        else sc2
      else sc2) sc) scr

/-- The minimap pass: skipped entirely unless the display leaves room
(`mapStartX > renderWidth / 2` and `18 < renderHeight`); then the block, the
player marker (guarded), and the `MAP` label (row 0, column-bounded only). -/
def minimapPass (rh rw : ℕ) (px py : ℚ) (scr : Screen) : Option Screen :=
  if (rw : ℤ) - 19 > Int.tdiv (rw : ℤ) 2 ∧ (16 : ℤ) + 2 < (rh : ℤ) then
    let scr1 := minimapCells rh rw scr
    let scr2 := setCellIf rh rw scr1 (cppTrunc (py * 16 / 16 + 1))
      (cppTrunc (((rw : ℚ) - 19) + px * 16 / 16)) 'P'
    writeRow rw 0 ((rw : ℤ) - 19).toNat mapLabel 0 scr2
  else some scr

/-- The banner text written whenever a visible active bullet is drawn. -/
def bulletMsg : List Char := "!!!!! BULLET ACTIVE !!!!!".toList

/-- The main bullet sprite: a 7x7 box of `'O'` centred at mid-height, each
write guarded. -/
def drawBulletBox (rh rw : ℕ) (center : ℤ) (scr : Screen) : Screen :=
  (intRange (Int.tdiv (rh : ℤ) 2 - 3) (Int.tdiv (rh : ℤ) 2 + 4)).foldl
    (fun sc y =>
      (intRange (center - 3) (center + 4)).foldl (fun sc2 x =>
        setCellIf rh rw sc2 y x 'O') sc) scr

/-- One trail segment: a 3x3 box of `'*'`, each write guarded. -/
def drawTrailBox (rh rw : ℕ) (center : ℤ) (scr : Screen) : Screen :=
  (intRange (Int.tdiv (rh : ℤ) 2 - 1) (Int.tdiv (rh : ℤ) 2 + 2)).foldl
    (fun sc y =>
      (intRange (center - 1) (center + 2)).foldl (fun sc2 x =>
        setCellIf rh rw sc2 y x '*') sc) scr

/-- The trail loop: entries 1..4 of the trail history, drawn when the trail
projection reports them in the field of view. -/
def drawTrails (rh rw : ℕ) (tproj : ℚ → ℚ → Option ℤ) (b : Bullet)
    (scr : Screen) : Screen :=
  (List.range 5).foldl (fun sc i =>
    if i = 0 then sc
    else
      match tproj (b.trailX.getD i 0) (b.trailY.getD i 0) with
      | none => sc
      | some tc => drawTrailBox rh rw tc sc) scr

/-- The bullet pass: for each active, in-view bullet, the sprite box, the
trail, and then the `BULLET ACTIVE` banner written into row 2 with only a
column bound — the row existence is never checked. -/
def bulletPass (rh rw : ℕ) (bproj : Bullet → Option ℤ)
    (tproj : ℚ → ℚ → Option ℤ) : List Bullet → Screen → Option Screen
  | [], scr => some scr
  | b :: bs, scr =>
      if b.active then
        match bproj b with
        | none => bulletPass rh rw bproj tproj bs scr
        | some center =>
            let scr1 := drawBulletBox rh rw center scr
            let scr2 := drawTrails rh rw tproj b scr1
            match writeRow rw 2 20 bulletMsg 0 scr2 with
            | none => none
            | some scr3 => bulletPass rh rw bproj tproj bs scr3
      else bulletPass rh rw bproj tproj bs scr

/-- The crosshair: a single guarded write at the centre cell. -/
def crosshairPass (rh rw : ℕ) (scr : Screen) : Screen :=
  if rh / 2 < rh ∧ rw / 2 < rw then setCell scr (rh / 2) (rw / 2) '+' else scr

/-- The whole Unix frame compositor for one frame, in source order: blank
buffer, walls/floor, enemy sprites (alive guard via `renderEnemies`), minimap,
bullets with trails and banner, crosshair, HUD stats into row 0 (again only
column-bounded).  `none` means some write landed outside the buffer. -/
def unixRender (rh rw : ℕ) (g : GState) (dists : ℕ → ℚ)
    (eproj : Enemy → Option (ℤ × ℤ)) (bproj : Bullet → Option ℤ)
    (tproj : ℚ → ℚ → Option ℤ) (stats : List Char) : Option Screen :=
  let scr1 := wallPass rh rw dists (blankScreen rh rw)
  let scr2 := renderEnemies (fun e sc =>
    match eproj e with
    | none => sc
    | some ch => drawEnemyBox rh rw ch.1 ch.2 sc) g.enemies scr1
  match minimapPass rh rw g.px g.py scr2 with
  | none => none
  | some scr3 =>
      match bulletPass rh rw bproj tproj g.bullets scr3 with
      | none => none
      | some scr4 => writeRow rw 0 0 stats 0 (crosshairPass rh rw scr4)

/-! ## Theorems -/

/-- C6: a movement command whose candidate destination cell is WALL leaves the
player's position (indeed the whole game state) exactly unchanged: the update
subtracts the very displacement it added. -/
theorem move_wall_reject (c : Cmd) (dt : ℚ) (g : GState)
    (h : candCell c g dt = some '#') :
    movePlayer c dt g = some g := by
  cases g with
  | mk px py dirX dirY bullets enemies bulletsFired activeBullets =>
    simp only [candCell, candPos] at h
    simp only [movePlayer, h]
    simp only [reduceIte, Option.some.injEq, GState.mk.injEq]
    exact ⟨by ring, by simp⟩

/-- C7: MoveForward then MoveBackward with the same elapsed time returns the
player to the starting state exactly, provided neither step is rejected by a
wall (and both collision reads are in range). -/
theorem forward_backward_roundtrip (g : GState) (dt : ℚ)
    (h1 : (candCell Cmd.forward g dt).isSome)
    (h1w : candCell Cmd.forward g dt ≠ some '#')
    (h2 : (candCell Cmd.backward
        { g with px := (candPos Cmd.forward g dt).1
                 py := (candPos Cmd.forward g dt).2 } dt).isSome)
    (h2w : candCell Cmd.backward
        { g with px := (candPos Cmd.forward g dt).1
                 py := (candPos Cmd.forward g dt).2 } dt ≠ some '#') :
    ∃ g1, movePlayer Cmd.forward dt g = some g1 ∧
      movePlayer Cmd.backward dt g1 = some g := by
  cases g with
  | mk px py dirX dirY bullets enemies bulletsFired activeBullets =>
    obtain ⟨a, ha⟩ := Option.isSome_iff_exists.mp h1
    obtain ⟨b, hb⟩ := Option.isSome_iff_exists.mp h2
    simp only [candCell, candPos] at ha hb h1w h2w
    rw [ha] at h1w
    rw [hb] at h2w
    have ha' : a ≠ '#' := fun hc => h1w (by rw [hc])
    have hb' : b ≠ '#' := fun hc => h2w (by rw [hc])
    refine ⟨⟨px + (moveDelta Cmd.forward dirX dirY dt).1,
             py + (moveDelta Cmd.forward dirX dirY dt).2,
             dirX, dirY, bullets, enemies, bulletsFired, activeBullets⟩, ?_, ?_⟩
    · simp only [movePlayer, ha]
      rw [if_neg ha']
    · simp only [movePlayer, hb]
      rw [if_neg hb']
      simp only [Option.some.injEq, GState.mk.injEq, moveDelta]
      exact ⟨by ring, by ring, by simp⟩

/-- Helper: a failed enemy scan means no alive enemy is within the hit
radius. -/
theorem killFirst_none (bx bY : ℚ) (es : List Enemy)
    (h : killFirst bx bY es = none) :
    ∀ e ∈ es, ¬(e.alive = true ∧ dist2 bx bY e < 1 / 4) := by
  induction es with
  | nil => intro e he; cases he
  | cons e0 es ih =>
      intro e he
      unfold killFirst at h
      split at h
      · exact absurd h (by simp)
      · rename_i hc
        cases he with
        | head => simpa using hc
        | tail _ hmem =>
            cases hkf : killFirst bx bY es with
            | none => exact ih hkf e hmem
            | some es1 => rw [hkf] at h; exact absurd h (by simp)

/-- Helper: a successful enemy scan kills exactly the first alive enemy within
the hit radius and leaves every other list entry untouched. -/
theorem killFirst_eq_some (bx bY : ℚ) (es es' : List Enemy)
    (h : killFirst bx bY es = some es') :
    ∃ k e, es[k]? = some e ∧ e.alive = true ∧ dist2 bx bY e < 1 / 4 ∧
      (∀ j ej, j < k → es[j]? = some ej →
        ¬(ej.alive = true ∧ dist2 bx bY ej < 1 / 4)) ∧
      es' = es.set k { e with alive := false } := by
  induction es generalizing es' with
  | nil => exact absurd h (by simp [killFirst])
  | cons e0 es ih =>
      unfold killFirst at h
      split at h
      · rename_i hc
        refine ⟨0, e0, by simp, hc.1, hc.2, ?_, ?_⟩
        · intro j ej hj; omega
        · simpa using h.symm
      · rename_i hc
        cases hkf : killFirst bx bY es with
        | none => rw [hkf] at h; exact absurd h (by simp)
        | some es1 =>
            rw [hkf] at h
            have hes' : e0 :: es1 = es' := by simpa using h
            obtain ⟨k, e, hk, hal, hcl, hfirst, hset⟩ := ih es1 hkf
            refine ⟨k + 1, e, by simpa using hk, hal, hcl, ?_, ?_⟩
            · intro j ej hj hget
              cases j with
              | zero =>
                  simp only [List.getElem?_cons_zero, Option.some.injEq] at hget
                  subst hget
                  simpa using hc
              | succ j =>
                  exact hfirst j ej (by omega) (by simpa using hget)
            · rw [← hes', hset]
              simp

/-- Helper: membership from a successful indexed lookup. -/
theorem mem_of_getElem? {α : Type} {l : List α} {k : ℕ} {a : α}
    (h : l[k]? = some a) : a ∈ l :=
  List.mem_iff_getElem?.mpr ⟨k, h⟩

/-- C3: for every active bullet, one `updateBullets` iteration first pushes
the pre-move position onto the trail (oldest entry dropped), then advances the
position by velocity times elapsed time, and then at most one of the three
deactivation causes fires, tested in source order: the out-of-bounds test on
the truncated new position, then the wall test, then the enemy-proximity
scan.  The enemy list is touched only when the third cause fires. -/
theorem bullet_update_structure (dt : ℚ) (b : Bullet) (es : List Enemy)
    (hb : b.active = true) :
    (updateOne dt b es).1.trailX = b.x :: b.trailX.dropLast ∧
    (updateOne dt b es).1.trailY = b.y :: b.trailY.dropLast ∧
    (updateOne dt b es).1.x = b.x + b.dx * dt ∧
    (updateOne dt b es).1.y = b.y + b.dy * dt ∧
    ((updateOne dt b es).1.active = false ↔
      (bulletOOB (moveBullet dt b) = true ∨
       (bulletOOB (moveBullet dt b) = false ∧
        bulletInWall (moveBullet dt b) = true) ∨
       (bulletOOB (moveBullet dt b) = false ∧
        bulletInWall (moveBullet dt b) = false ∧
        ∃ e ∈ es, e.alive = true ∧
          dist2 (moveBullet dt b).x (moveBullet dt b).y e < 1 / 4))) ∧
    ((updateOne dt b es).2.1 ≠ es →
      (bulletOOB (moveBullet dt b) = false ∧
       bulletInWall (moveBullet dt b) = false ∧
       ∃ e ∈ es, e.alive = true ∧
         dist2 (moveBullet dt b).x (moveBullet dt b).y e < 1 / 4)) := by
  cases hoob : bulletOOB (moveBullet dt b) with
  | true =>
      have heq : updateOne dt b es = (deactivate (moveBullet dt b), es, -1) := by
        simp [updateOne, hb, hoob]
      rw [heq]
      exact ⟨rfl, rfl, rfl, rfl, by simp [deactivate, hoob], by simp⟩
  | false =>
      cases hwall : bulletInWall (moveBullet dt b) with
      | true =>
          have heq : updateOne dt b es =
              (deactivate (moveBullet dt b), es, -1) := by
            simp [updateOne, hb, hoob, hwall]
          rw [heq]
          exact ⟨rfl, rfl, rfl, rfl, by simp [deactivate, hoob, hwall], by simp⟩
      | false =>
          cases hkf : killFirst (moveBullet dt b).x (moveBullet dt b).y es with
          | none =>
              have hno := killFirst_none _ _ es hkf
              have heq : updateOne dt b es = (moveBullet dt b, es, 0) := by
                simp [updateOne, hb, hoob, hwall, hkf]
              rw [heq]
              refine ⟨rfl, rfl, rfl, rfl, ?_, by simp⟩
              have hact : (moveBullet dt b).active = true := hb
              rw [hact]
              constructor
              · intro hcontra; cases hcontra
              · rintro (hcontra | ⟨_, hcontra⟩ | ⟨_, _, e, hmem, hcond⟩)
                · cases hcontra
                · cases hcontra
                · exact absurd hcond (by simpa using hno e hmem)
          | some es1 =>
              obtain ⟨k, e, hk, hal, hcl, _, _⟩ :=
                killFirst_eq_some _ _ es es1 hkf
              have hmem : e ∈ es := mem_of_getElem? hk
              have heq : updateOne dt b es =
                  (deactivate (moveBullet dt b), es1, -1) := by
                simp [updateOne, hb, hoob, hwall, hkf]
              rw [heq]
              refine ⟨rfl, rfl, rfl, rfl, ?_, ?_⟩
              · constructor
                · intro _; exact Or.inr (Or.inr ⟨rfl, rfl, e, hmem, hal, hcl⟩)
                · intro _; rfl
              · intro _; exact ⟨rfl, rfl, e, hmem, hal, hcl⟩

/-- C4: when an active bullet, after its move, is in bounds, not in a wall
cell, and within the 0.5-unit hit radius of at least one alive enemy, the
update kills exactly the first such enemy in store order (its other fields and
every other enemy are unchanged: the result is `es.set k` of that one entry)
and deactivates the bullet in the same call.  The per-bullet update reads and
writes no other pool slot, so every other bullet is unaffected by the hit. -/
theorem bullet_hit_kills_first (dt : ℚ) (b : Bullet) (es : List Enemy)
    (hb : b.active = true)
    (hoob : bulletOOB (moveBullet dt b) = false)
    (hwall : bulletInWall (moveBullet dt b) = false)
    (hnear : ∃ e ∈ es, e.alive = true ∧
      dist2 (moveBullet dt b).x (moveBullet dt b).y e < 1 / 4) :
    ∃ k e, es[k]? = some e ∧ e.alive = true ∧
      dist2 (moveBullet dt b).x (moveBullet dt b).y e < 1 / 4 ∧
      (∀ j ej, j < k → es[j]? = some ej →
        ¬(ej.alive = true ∧
          dist2 (moveBullet dt b).x (moveBullet dt b).y ej < 1 / 4)) ∧
      (updateOne dt b es).2.1 = es.set k { e with alive := false } ∧
      (updateOne dt b es).1.active = false := by
  cases hkf : killFirst (moveBullet dt b).x (moveBullet dt b).y es with
  | none =>
      obtain ⟨e, hmem, hal, hcl⟩ := hnear
      exact absurd ⟨hal, hcl⟩ (killFirst_none _ _ es hkf e hmem)
  | some es1 =>
      obtain ⟨k, e, hk, hal, hcl, hfirst, hset⟩ :=
        killFirst_eq_some _ _ es es1 hkf
      have heq : updateOne dt b es =
          (deactivate (moveBullet dt b), es1, -1) := by
        simp [updateOne, hb, hoob, hwall, hkf]
      refine ⟨k, e, hk, hal, hcl, hfirst, ?_, ?_⟩
      · rw [heq]; exact hset
      · rw [heq]; rfl

/-- Helper: the active count never exceeds the pool length. -/
theorem countActive_le_length : ∀ bs : List Bullet,
    countActive bs ≤ (bs.length : ℤ)
  | [] => le_refl 0
  | b :: bs => by
      have ih := countActive_le_length bs
      simp only [countActive, List.length_cons]
      split <;> push_cast <;> omega

/-- Helper: a successful activation scan adds exactly one active slot and
keeps the pool length. -/
theorem activateFirst_some_spec (px py s co : ℚ) :
    ∀ (bs bs' : List Bullet), activateFirst px py s co bs = some bs' →
      bs'.length = bs.length ∧ countActive bs' = countActive bs + 1 := by
  intro bs
  induction bs with
  | nil => intro bs' h; cases h
  | cons b bs ih =>
      intro bs' h
      unfold activateFirst at h
      cases hb : b.active with
      | true =>
          rw [hb] at h
          simp only [if_pos] at h
          cases hrec : activateFirst px py s co bs with
          | none => rw [hrec] at h; cases h
          | some bs1 =>
              rw [hrec] at h
              simp only [Option.some.injEq] at h
              subst h
              obtain ⟨hl, hc⟩ := ih bs1 hrec
              constructor
              · simp [hl]
              · simp only [countActive, hb, hc]
                ring
      | false =>
          rw [hb] at h
          simp only [Bool.false_eq_true, if_false, Option.some.injEq] at h
          subst h
          constructor
          · simp
          · simp only [countActive, hb]
            norm_num
            ring

/-- Helper: when fewer slots are active than exist, the activation scan
succeeds. -/
theorem activateFirst_total (px py s co : ℚ) :
    ∀ bs : List Bullet, countActive bs < (bs.length : ℤ) →
      (activateFirst px py s co bs).isSome := by
  intro bs
  induction bs with
  | nil => intro h; simp [countActive] at h
  | cons b bs ih =>
      intro h
      unfold activateFirst
      cases hb : b.active with
      | true =>
          simp only [if_pos]
          simp only [countActive, hb, if_pos, List.length_cons] at h
          have hlt : countActive bs < (bs.length : ℤ) := by push_cast at h ⊢; omega
          cases hrec : activateFirst px py s co bs with
          | none => rw [hrec] at ih; exact absurd (ih hlt) (by simp)
          | some bs1 => simp
      | false => simp

/-- Helper: a movement command never touches the bullet pool, the enemies or
the counters. -/
theorem movePlayer_preserves (c : Cmd) (dt : ℚ) (g g' : GState)
    (h : movePlayer c dt g = some g') :
    g'.bullets = g.bullets ∧ g'.enemies = g.enemies ∧
    g'.activeBullets = g.activeBullets ∧ g'.bulletsFired = g.bulletsFired := by
  simp only [movePlayer] at h
  split at h
  · cases h
  · split at h <;>
      (simp only [Option.some.injEq] at h; subst h; exact ⟨rfl, rfl, rfl, rfl⟩)

/-- Helper: moving a bullet does not change its active flag. -/
theorem moveBullet_active (dt : ℚ) (b : Bullet) :
    (moveBullet dt b).active = b.active := rfl

/-- Helper: per-slot counter bookkeeping of `updateBullets`: the change in the
slot's active flag matches the returned counter delta. -/
theorem updateOne_active_delta (dt : ℚ) (b : Bullet) (es : List Enemy) :
    (if (updateOne dt b es).1.active then (1 : ℤ) else 0) =
      (if b.active then (1 : ℤ) else 0) + (updateOne dt b es).2.2 := by
  cases hb : b.active with
  | false => simp [updateOne, hb]
  | true =>
      cases hoob : bulletOOB (moveBullet dt b) with
      | true => simp [updateOne, hb, hoob, deactivate]
      | false =>
          cases hwall : bulletInWall (moveBullet dt b) with
          | true => simp [updateOne, hb, hoob, hwall, deactivate]
          | false =>
              cases hkf : killFirst (moveBullet dt b).x (moveBullet dt b).y es with
              | none => simp [updateOne, hb, hoob, hwall, hkf, moveBullet_active]
              | some es1 => simp [updateOne, hb, hoob, hwall, hkf, deactivate]

/-- Helper: the full bullet loop keeps the pool length and changes the active
count by exactly the accumulated counter delta. -/
theorem updB_spec (dt : ℚ) :
    ∀ (bs : List Bullet) (es : List Enemy),
      countActive (updB dt bs es).1 = countActive bs + (updB dt bs es).2.2 ∧
      (updB dt bs es).1.length = bs.length := by
  intro bs
  induction bs with
  | nil => intro es; simp [updB, countActive]
  | cons b bs ih =>
      intro es
      obtain ⟨ihc, ihl⟩ := ih (updateOne dt b es).2.1
      constructor
      · simp only [updB, countActive, ihc, updateOne_active_delta dt b es]
        ring
      · simp [updB, ihl]

/-- Helper: the pool invariant holds initially. -/
theorem poolInv_init : PoolInv initState :=
  ⟨rfl, rfl⟩

/-- Helper: every frame-loop transition preserves the pool invariant. -/
theorem step_preserves_poolInv {g g' : GState} (hs : Step g g')
    (hI : PoolInv g) : PoolInv g' := by
  obtain ⟨hlen, hcnt⟩ := hI
  cases hs with
  | move c dt g g' hmp =>
      obtain ⟨hb, _, ha, _⟩ := movePlayer_preserves c dt g g' hmp
      exact ⟨by rw [hb, hlen], by rw [hb, ha, hcnt]⟩
  | turn g s co => exact ⟨hlen, hcnt⟩
  | shoot g =>
      unfold shootBullet
      by_cases hfull : g.activeBullets ≥ 10
      · rw [if_pos hfull]; exact ⟨hlen, hcnt⟩
      · rw [if_neg hfull]
        have hlt : countActive g.bullets < (g.bullets.length : ℤ) := by
          rw [hcnt, hlen]; push_cast; omega
        cases hact : activateFirst g.px g.py g.dirX g.dirY g.bullets with
        | none =>
            exact absurd (activateFirst_total g.px g.py g.dirX g.dirY
              g.bullets hlt) (by simp [hact])
        | some bs =>
            obtain ⟨hl, hc⟩ :=
              activateFirst_some_spec g.px g.py g.dirX g.dirY g.bullets bs hact
            exact ⟨by simp [hl, hlen], by simp [hc, hcnt]⟩
  | update g dt hdt =>
      obtain ⟨hc, hl⟩ := updB_spec dt g.bullets g.enemies
      exact ⟨by simp [updateBullets, hl, hlen], by simp [updateBullets, hc, hcnt]⟩

/-- Helper: the pool invariant holds in every reachable state. -/
theorem reachable_poolInv : ∀ g, Reachable g → PoolInv g := by
  intro g h
  induction h with
  | init => exact poolInv_init
  | step _ hs ih => exact step_preserves_poolInv hs ih

/-- Helper: setting one list entry leaves every other index unchanged. -/
theorem getElem?_set_ne {α : Type} :
    ∀ (l : List α) (i j : ℕ) (a : α), i ≠ j → (l.set i a)[j]? = l[j]? := by
  intro l
  induction l with
  | nil => intro i j a _; simp
  | cons b l ih =>
      intro i j a hij
      cases i with
      | zero =>
          cases j with
          | zero => exact absurd rfl hij
          | succ j => simp
      | succ i =>
          cases j with
          | zero => simp
          | succ j => simpa using ih i j a (by omega)

/-- Helper: the enemy scan preserves every dead enemy entry verbatim. -/
theorem killFirst_dead_preserved (bx bY : ℚ) (es es' : List Enemy)
    (h : killFirst bx bY es = some es') (k : ℕ) (e : Enemy)
    (hk : es[k]? = some e) (hd : e.alive = false) : es'[k]? = some e := by
  obtain ⟨j, ej, hj, haj, _, _, hset⟩ := killFirst_eq_some bx bY es es' h
  have hne : j ≠ k := by
    intro hjk
    subst hjk
    rw [hj] at hk
    simp only [Option.some.injEq] at hk
    subst hk
    rw [haj] at hd
    cases hd
  rw [hset, getElem?_set_ne es j k _ hne]
  exact hk

/-- Helper: one bullet slot's update preserves every dead enemy entry. -/
theorem updateOne_dead_preserved (dt : ℚ) (b : Bullet) (es : List Enemy)
    (k : ℕ) (e : Enemy) (hk : es[k]? = some e) (hd : e.alive = false) :
    (updateOne dt b es).2.1[k]? = some e := by
  cases hb : b.active with
  | false => simp only [updateOne, hb, Bool.false_eq_true, if_false]; exact hk
  | true =>
      cases hoob : bulletOOB (moveBullet dt b) with
      | true =>
          have heq : (updateOne dt b es).2.1 = es := by
            simp [updateOne, hb, hoob]
          rw [heq]; exact hk
      | false =>
          cases hwall : bulletInWall (moveBullet dt b) with
          | true =>
              have heq : (updateOne dt b es).2.1 = es := by
                simp [updateOne, hb, hoob, hwall]
              rw [heq]; exact hk
          | false =>
              cases hkf : killFirst (moveBullet dt b).x (moveBullet dt b).y es with
              | none =>
                  have heq : (updateOne dt b es).2.1 = es := by
                    simp [updateOne, hb, hoob, hwall, hkf]
                  rw [heq]; exact hk
              | some es1 =>
                  have heq : (updateOne dt b es).2.1 = es1 := by
                    simp [updateOne, hb, hoob, hwall, hkf]
                  rw [heq]
                  exact killFirst_dead_preserved _ _ es es1 hkf k e hk hd

/-- Helper: the whole bullet loop preserves every dead enemy entry. -/
theorem updB_dead_preserved (dt : ℚ) :
    ∀ (bs : List Bullet) (es : List Enemy) (k : ℕ) (e : Enemy),
      es[k]? = some e → e.alive = false → (updB dt bs es).2.1[k]? = some e := by
  intro bs
  induction bs with
  | nil => intro es k e hk _; exact hk
  | cons b bs ih =>
      intro es k e hk hd
      exact ih (updateOne dt b es).2.1 k e
        (updateOne_dead_preserved dt b es k e hk hd) hd

/-- Helper: firing never touches the enemy store. -/
theorem shootBullet_enemies (g : GState) :
    (shootBullet g).enemies = g.enemies := by
  unfold shootBullet
  split
  · rfl
  · split <;> rfl

/-- C9: death is terminal and dead enemies are invisible to queries.  (i) No
frame-loop transition ever changes a dead enemy's entry (in particular the
alive flag never returns to true); (ii) a bullet's enemy-collision scan
preserves every dead enemy verbatim (dead enemies are excluded from the
distance tests, which only run under the alive guard); (iii) the enemy sprite
pass draws exactly what it would draw with the dead enemies removed. -/
theorem enemy_death_terminal :
    (∀ g g' : GState, Step g g' → ∀ (k : ℕ) (e : Enemy),
      g.enemies[k]? = some e → e.alive = false →
      g'.enemies[k]? = some e) ∧
    (∀ (dt : ℚ) (b : Bullet) (es : List Enemy) (k : ℕ) (e : Enemy),
      es[k]? = some e → e.alive = false →
      (updateOne dt b es).2.1[k]? = some e) ∧
    (∀ (drawOne : Enemy → Screen → Screen) (es : List Enemy) (scr : Screen),
      renderEnemies drawOne es scr =
        renderEnemies drawOne (es.filter fun e => e.alive) scr) := by
  refine ⟨?_, updateOne_dead_preserved, ?_⟩
  · intro g g' hs k e hk hd
    cases hs with
    | move c dt g g' hmp =>
        obtain ⟨_, he, _, _⟩ := movePlayer_preserves c dt g g' hmp
        rw [he]; exact hk
    | turn g s co => exact hk
    | shoot g => rw [shootBullet_enemies]; exact hk
    | update g dt hdt =>
        exact updB_dead_preserved dt g.bullets g.enemies k e hk hd
  · intro drawOne es
    induction es with
    | nil => intro scr; rfl
    | cons e es ih =>
        intro scr
        cases ha : e.alive with
        | true =>
            simp only [renderEnemies, List.foldl_cons, List.filter_cons,
              ha, if_pos]
            exact ih (drawOne e scr)
        | false =>
            simp only [renderEnemies, List.foldl_cons, List.filter_cons,
              ha, Bool.false_eq_true, if_false]
            exact ih scr

/-- Helper: the march maintains distance k/10 with k counting steps; the
result is positive, at most 16, and equal to 16 whenever the loop ended on an
out-of-map sample. -/
theorem rayStep_range (px py dx dy : ℚ) :
    ∀ (n k : ℕ), k ≤ 160 → 160 ≤ k + n →
      0 < (rayStep px py dx dy n ((k : ℚ) / 10)).1 ∧
      (rayStep px py dx dy n ((k : ℚ) / 10)).1 ≤ 16 ∧
      ((rayStep px py dx dy n ((k : ℚ) / 10)).2 = RayEnd.oob →
        (rayStep px py dx dy n ((k : ℚ) / 10)).1 = 16) := by
  intro n
  induction n with
  | zero =>
      intro k hk hfuel
      have hk160 : k = 160 := by omega
      subst hk160
      refine ⟨by norm_num [rayStep], by norm_num [rayStep], ?_⟩
      intro h
      cases h
  | succ n ih =>
      intro k hk hfuel
      by_cases hlt : ((k : ℚ) / 10) < 16
      · have hk' : k < 160 := by
          by_contra hge
          have : (160 : ℚ) ≤ (k : ℚ) := by exact_mod_cast Nat.le_of_not_lt hge
          have : (16 : ℚ) ≤ (k : ℚ) / 10 := by linarith
          linarith
        rw [rayStep, if_pos hlt]
        by_cases hoob : px + dx * ((k : ℚ) / 10 + 1 / 10) < 0 ∨
            px + dx * ((k : ℚ) / 10 + 1 / 10) ≥ 16 ∨
            py + dy * ((k : ℚ) / 10 + 1 / 10) < 0 ∨
            py + dy * ((k : ℚ) / 10 + 1 / 10) ≥ 16
        · rw [if_pos hoob]
          exact ⟨by norm_num, by norm_num, fun _ => rfl⟩
        · rw [if_neg hoob]
          by_cases hwall : mapAt (mapIndex (px + dx * ((k : ℚ) / 10 + 1 / 10))
              (py + dy * ((k : ℚ) / 10 + 1 / 10))) = some '#'
          · rw [if_pos hwall]
            refine ⟨?_, ?_, ?_⟩
            · have : (0 : ℚ) ≤ (k : ℚ) := by positivity
              simp only
              linarith
            · have : (k : ℚ) ≤ 159 := by exact_mod_cast Nat.le_of_lt_succ hk'
              simp only
              linarith
            · intro h; cases h
          · rw [if_neg hwall]
            have hcast : ((k : ℚ) / 10 + 1 / 10) = (((k + 1 : ℕ) : ℚ) / 10) := by
              push_cast
              ring
            rw [hcast]
            exact ih (k + 1) (by omega) (by omega)
      · rw [rayStep, if_neg hlt]
        have hge : (16 : ℚ) ≤ (k : ℚ) / 10 := le_of_not_lt hlt
        have hle : (k : ℚ) / 10 ≤ 16 := by
          have : (k : ℚ) ≤ 160 := by exact_mod_cast hk
          linarith
        have heq : ((k : ℚ) / 10) = 16 := le_antisymm hle hge
        refine ⟨by rw [heq]; norm_num, by rw [heq], ?_⟩
        intro h
        cases h

/-- C5 (amended): for every start position and ray direction, the returned
`distanceToWall` lies in (0, 16]; and when the march ends on an out-of-map
sample, the returned distance is exactly the maximum range 16 — the source
overwrites the marched distance with 16 rather than clamping it. -/
theorem castRay_distance_range (px py dx dy : ℚ) :
    0 < (castRay px py dx dy).1 ∧ (castRay px py dx dy).1 ≤ 16 ∧
    ((castRay px py dx dy).2 = RayEnd.oob → (castRay px py dx dy).1 = 16) := by
  have h := rayStep_range px py dx dy 161 0 (by omega) (by omega)
  simpa only [castRay, Nat.cast_zero, zero_div] using h

section DecideEvaluations
attribute [local semireducible] Rat.add Rat.sub Rat.mul Rat.inv Rat.ofScientific

/-- C2: in every reachable state the number of set active flags equals the
`activeBullets` counter and never exceeds the pool capacity 10; firing with a
full pool is a no-op on the whole state; and firing 15 times in a row from
the initial state leaves exactly 10 active bullets with 10 recorded fires
(5 of the 15 shots dropped). -/
theorem bullet_pool_invariant :
    (∀ g, Reachable g → countActive g.bullets = g.activeBullets ∧
      g.activeBullets ≤ 10) ∧
    (∀ g, g.activeBullets ≥ 10 → shootBullet g = g) ∧
    (shootBullet^[15] initState).activeBullets = 10 ∧
    countActive (shootBullet^[15] initState).bullets = 10 ∧
    (shootBullet^[15] initState).bulletsFired = 10 := by
  refine ⟨?_, ?_, by decide, by decide, by decide⟩
  · intro g hg
    obtain ⟨hlen, hcnt⟩ := reachable_poolInv g hg
    refine ⟨hcnt, ?_⟩
    have hle := countActive_le_length g.bullets
    rw [hcnt, hlen] at hle
    exact_mod_cast hle
  · intro g hfull
    unfold shootBullet
    rw [if_pos hfull]

/-- Witness for C2: the invariant instantiated at the (reachable) initial
state, and the full-pool no-op instantiated at the state after 15 shots. -/
theorem bullet_pool_invariant_witness :
    (countActive initState.bullets = initState.activeBullets ∧
      initState.activeBullets ≤ 10) ∧
    shootBullet (shootBullet^[15] initState) = shootBullet^[15] initState :=
  ⟨bullet_pool_invariant.1 initState Reachable.init,
   bullet_pool_invariant.2.1 (shootBullet^[15] initState)
     (by rw [bullet_pool_invariant.2.2.1])⟩

/-- C1: refuted (code bug).  From the initial state, MoveForward with elapsed
time 2 s produces the candidate position (8, 18); the collision check then
reads the map at linear index 296, which is outside the 256-character map
string — the unguarded `map[(int)playerY * MAP_WIDTH + (int)playerX]` read
uses out-of-range coordinates, contradicting the claimed invariant. -/
theorem moveForward_collision_read_out_of_range :
    candPos Cmd.forward initState 2 = (8, 18) ∧
    mapIndex 8 18 = 296 ∧
    mapAt 296 = none ∧
    movePlayer Cmd.forward 2 initState = none := by decide

/-- Witness for C6: from the initial state, MoveForward for 1.5 s lands in the
border wall cell (8, 15) and the state is returned unchanged. -/
theorem move_wall_reject_witness :
    candCell Cmd.forward initState (3 / 2) = some '#' ∧
    movePlayer Cmd.forward (3 / 2) initState = some initState :=
  ⟨by decide, move_wall_reject Cmd.forward (3 / 2) initState (by decide)⟩

/-- Witness for C7: from the initial state with elapsed time 0.1 s, forward
moves to (8, 8.5) and backward returns exactly to (8, 8). -/
theorem forward_backward_roundtrip_witness :
    ∃ g1, movePlayer Cmd.forward (1 / 10) initState = some g1 ∧
      movePlayer Cmd.backward (1 / 10) g1 = some initState :=
  forward_backward_roundtrip initState (1 / 10)
    (by decide) (by decide) (by decide) (by decide)

/-- C8: refuted (code bug).  The fire key's latch is toggled every frame the
key is held, so holding Fire for three consecutive frames (latch initially
clear) calls `shootBullet` twice — once per discrete press is the evident
intent of the latch, but the `else` branch clears it while the key is still
down. -/
theorem fire_held_not_edge_triggered :
    shotsWhileHeld [true, true, true] false = 2 ∧
    shotsWhileHeld [true, true, true] false ≠ 1 := by decide

/-- Witness for C3: a live bullet at (8,8) moving (0,5) for 1 s reaches
(8,13), an empty cell with no enemy in radius, and the structure theorem
applies (no deactivation cause fires). -/
theorem bullet_update_structure_witness :
    (updateOne 1 (Bullet.mk 8 8 0 5 true (List.replicate 5 (8 : ℚ)) (List.replicate 5 (8 : ℚ))) initState.enemies).1.trailX =
      (Bullet.mk 8 8 0 5 true (List.replicate 5 (8 : ℚ)) (List.replicate 5 (8 : ℚ))).x :: (Bullet.mk 8 8 0 5 true (List.replicate 5 (8 : ℚ)) (List.replicate 5 (8 : ℚ))).trailX.dropLast ∧
    (updateOne 1 (Bullet.mk 8 8 0 5 true (List.replicate 5 (8 : ℚ)) (List.replicate 5 (8 : ℚ))) initState.enemies).1.trailY =
      (Bullet.mk 8 8 0 5 true (List.replicate 5 (8 : ℚ)) (List.replicate 5 (8 : ℚ))).y :: (Bullet.mk 8 8 0 5 true (List.replicate 5 (8 : ℚ)) (List.replicate 5 (8 : ℚ))).trailY.dropLast ∧
    (updateOne 1 (Bullet.mk 8 8 0 5 true (List.replicate 5 (8 : ℚ)) (List.replicate 5 (8 : ℚ))) initState.enemies).1.x = (Bullet.mk 8 8 0 5 true (List.replicate 5 (8 : ℚ)) (List.replicate 5 (8 : ℚ))).x + (Bullet.mk 8 8 0 5 true (List.replicate 5 (8 : ℚ)) (List.replicate 5 (8 : ℚ))).dx * 1 ∧
    (updateOne 1 (Bullet.mk 8 8 0 5 true (List.replicate 5 (8 : ℚ)) (List.replicate 5 (8 : ℚ))) initState.enemies).1.y = (Bullet.mk 8 8 0 5 true (List.replicate 5 (8 : ℚ)) (List.replicate 5 (8 : ℚ))).y + (Bullet.mk 8 8 0 5 true (List.replicate 5 (8 : ℚ)) (List.replicate 5 (8 : ℚ))).dy * 1 ∧
    ((updateOne 1 (Bullet.mk 8 8 0 5 true (List.replicate 5 (8 : ℚ)) (List.replicate 5 (8 : ℚ))) initState.enemies).1.active = false ↔
      (bulletOOB (moveBullet 1 (Bullet.mk 8 8 0 5 true (List.replicate 5 (8 : ℚ)) (List.replicate 5 (8 : ℚ)))) = true ∨
       (bulletOOB (moveBullet 1 (Bullet.mk 8 8 0 5 true (List.replicate 5 (8 : ℚ)) (List.replicate 5 (8 : ℚ)))) = false ∧
        bulletInWall (moveBullet 1 (Bullet.mk 8 8 0 5 true (List.replicate 5 (8 : ℚ)) (List.replicate 5 (8 : ℚ)))) = true) ∨
       (bulletOOB (moveBullet 1 (Bullet.mk 8 8 0 5 true (List.replicate 5 (8 : ℚ)) (List.replicate 5 (8 : ℚ)))) = false ∧
        bulletInWall (moveBullet 1 (Bullet.mk 8 8 0 5 true (List.replicate 5 (8 : ℚ)) (List.replicate 5 (8 : ℚ)))) = false ∧
        ∃ e ∈ initState.enemies, e.alive = true ∧
          dist2 (moveBullet 1 (Bullet.mk 8 8 0 5 true (List.replicate 5 (8 : ℚ)) (List.replicate 5 (8 : ℚ)))).x (moveBullet 1 (Bullet.mk 8 8 0 5 true (List.replicate 5 (8 : ℚ)) (List.replicate 5 (8 : ℚ)))).y e < 1 / 4))) ∧
    ((updateOne 1 (Bullet.mk 8 8 0 5 true (List.replicate 5 (8 : ℚ)) (List.replicate 5 (8 : ℚ))) initState.enemies).2.1 ≠ initState.enemies →
      (bulletOOB (moveBullet 1 (Bullet.mk 8 8 0 5 true (List.replicate 5 (8 : ℚ)) (List.replicate 5 (8 : ℚ)))) = false ∧
       bulletInWall (moveBullet 1 (Bullet.mk 8 8 0 5 true (List.replicate 5 (8 : ℚ)) (List.replicate 5 (8 : ℚ)))) = false ∧
       ∃ e ∈ initState.enemies, e.alive = true ∧
         dist2 (moveBullet 1 (Bullet.mk 8 8 0 5 true (List.replicate 5 (8 : ℚ)) (List.replicate 5 (8 : ℚ)))).x (moveBullet 1 (Bullet.mk 8 8 0 5 true (List.replicate 5 (8 : ℚ)) (List.replicate 5 (8 : ℚ)))).y e < 1 / 4)) :=
  bullet_update_structure 1 (Bullet.mk 8 8 0 5 true (List.replicate 5 (8 : ℚ)) (List.replicate 5 (8 : ℚ))) initState.enemies rfl

/-- Witness for C4: a stationary live bullet at (9.7, 10) is within 0.3 of the
alive enemy at (10, 10); updating with dt = 0 kills that enemy (index 0) and
deactivates the bullet. -/
theorem bullet_hit_kills_first_witness :
    ∃ k e, initState.enemies[k]? = some e ∧ e.alive = true ∧
      dist2 (moveBullet 0 (Bullet.mk (97 / 10) 10 0 0 true (List.replicate 5 (0 : ℚ)) (List.replicate 5 (0 : ℚ)))).x (moveBullet 0 (Bullet.mk (97 / 10) 10 0 0 true (List.replicate 5 (0 : ℚ)) (List.replicate 5 (0 : ℚ)))).y e < 1 / 4 ∧
      (∀ j ej, j < k → initState.enemies[j]? = some ej →
        ¬(ej.alive = true ∧
          dist2 (moveBullet 0 (Bullet.mk (97 / 10) 10 0 0 true (List.replicate 5 (0 : ℚ)) (List.replicate 5 (0 : ℚ)))).x (moveBullet 0 (Bullet.mk (97 / 10) 10 0 0 true (List.replicate 5 (0 : ℚ)) (List.replicate 5 (0 : ℚ)))).y ej < 1 / 4)) ∧
      (updateOne 0 (Bullet.mk (97 / 10) 10 0 0 true (List.replicate 5 (0 : ℚ)) (List.replicate 5 (0 : ℚ))) initState.enemies).2.1 =
        initState.enemies.set k { e with alive := false } ∧
      (updateOne 0 (Bullet.mk (97 / 10) 10 0 0 true (List.replicate 5 (0 : ℚ)) (List.replicate 5 (0 : ℚ))) initState.enemies).1.active = false :=
  bullet_hit_kills_first 0 (Bullet.mk (97 / 10) 10 0 0 true (List.replicate 5 (0 : ℚ)) (List.replicate 5 (0 : ℚ))) initState.enemies rfl (by decide) (by decide)
    ⟨Enemy.mk 10 10 true, by decide, by decide, by decide⟩

/-- Witness for C9: in a state whose only enemy is already dead, a bullet
update step leaves the dead enemy entry untouched; the per-slot scan does too;
and the sprite pass ignores it. -/
theorem enemy_death_terminal_witness :
    (updateBullets 1 (GState.mk 8 8 0 1 (List.replicate 10 Bullet.init) [Enemy.mk 10 10 false] 0 0)).enemies[0]? = some (Enemy.mk 10 10 false) ∧
    (updateOne 0 Bullet.init [Enemy.mk 10 10 false]).2.1[0]? =
      some (Enemy.mk 10 10 false) ∧
    renderEnemies (fun _ sc => sc) [Enemy.mk 10 10 false] ([] : Screen) =
      renderEnemies (fun _ sc => sc)
        ([Enemy.mk 10 10 false].filter fun e => e.alive) ([] : Screen) :=
  ⟨enemy_death_terminal.1 (GState.mk 8 8 0 1 (List.replicate 10 Bullet.init) [Enemy.mk 10 10 false] 0 0) (updateBullets 1 (GState.mk 8 8 0 1 (List.replicate 10 Bullet.init) [Enemy.mk 10 10 false] 0 0))
      (Step.update (GState.mk 8 8 0 1 (List.replicate 10 Bullet.init) [Enemy.mk 10 10 false] 0 0) 1 (by norm_num)) 0 (Enemy.mk 10 10 false) rfl rfl,
   enemy_death_terminal.2.1 0 Bullet.init [Enemy.mk 10 10 false] 0
      (Enemy.mk 10 10 false) rfl rfl,
   enemy_death_terminal.2.2 (fun _ sc => sc) [Enemy.mk 10 10 false] []⟩

/-- C5 counterexample: casting from (15.95, 8) with direction (1, 0), the very
first sample (at marched distance 0.1) falls outside the map, yet the returned
distance is 16, not the spec's "current distance clamped to max range"
(which would be 0.1). -/
theorem castRay_oob_counterexample :
    ((319 : ℚ) / 20 + 1 * (0 + 1 / 10) ≥ 16) ∧
    castRay (319 / 20) 8 1 0 = (16, RayEnd.oob) ∧
    specOobDistance (0 + 1 / 10) = 1 / 10 ∧
    (castRay (319 / 20) 8 1 0).1 ≠ specOobDistance (0 + 1 / 10) := by decide

/-- Witness for C5: the range theorem applied at the counterexample ray, with
the out-of-map hypothesis discharged concretely. -/
theorem castRay_distance_range_witness :
    0 < (castRay (319 / 20) 8 1 0).1 ∧ (castRay (319 / 20) 8 1 0).1 ≤ 16 ∧
    (castRay (319 / 20) 8 1 0).1 = 16 :=
  ⟨(castRay_distance_range (319 / 20) 8 1 0).1,
   (castRay_distance_range (319 / 20) 8 1 0).2.1,
   (castRay_distance_range (319 / 20) 8 1 0).2.2 (by decide)⟩

/-- C10: refuted (code bug).  The HUD stats write into row 0 and the
`BULLET ACTIVE` banner write into row 2 check only the column bound, never the
row: with a 22-column, 2-row terminal and one active bullet in view the
banner write lands outside the 2-row buffer, and with a 5-column, 0-row
terminal the stats write lands outside the empty buffer (both undefined
behaviour on `screenLines` in the source).  With 3 rows the same frame
composes fine, so the missing guard is exactly the row bound. -/
theorem render_unguarded_rows_out_of_bounds :
    unixRender 2 22 (GState.mk 8 8 0 1 [Bullet.mk 8 8 0 5 true (List.replicate 5 (8 : ℚ)) (List.replicate 5 (8 : ℚ))] [] 1 1) (fun _ => 8) (fun _ => none) (fun _ => some 10)
      (fun _ _ => none) ("FPS: X | Enemies: 0 | Bullets Fired: 1 | Active Bullets: 1".toList) = none ∧
    unixRender 0 5 initState (fun _ => 8) (fun _ => none) (fun _ => none)
      (fun _ _ => none) ("FPS: X | Enemies: 0 | Bullets Fired: 1 | Active Bullets: 1".toList) = none ∧
    (unixRender 3 22 (GState.mk 8 8 0 1 [Bullet.mk 8 8 0 5 true (List.replicate 5 (8 : ℚ)) (List.replicate 5 (8 : ℚ))] [] 1 1) (fun _ => 8) (fun _ => none) (fun _ => some 10)
      (fun _ _ => none) ("FPS: X | Enemies: 0 | Bullets Fired: 1 | Active Bullets: 1".toList)).isSome = true := by decide

end DecideEvaluations

end AsciiFps
